import Mathlib

/-!
# Kumu Element Display plugin

A shallow embedding of `src/scripts/kumu-element-display-plugin.js` and the
properties of its fetch / select / display flow.

Modelling conventions.

* JavaScript values are the values `JSON.parse` can produce, plus `undefined`
  (the result of reading a property that is not there).  A number is
  represented by the text `Number.prototype.toString` prints for it, which is
  all the plugin observes of a number besides its truthiness; strings are Lean
  strings.
* A run of a function is a pair of the host-visible effects it performed, in
  order, and its completion: a value, or the exception it threw (for an
  `async` function: the rejection of its promise).
* The host (browser and game engine) is a parameter: what `fetch` settles to,
  `String.prototype.toLowerCase`, the stored `baseUrl` setting,
  `ChatMessage.getWhisperRecipients` and the HTML parser that turns the dialog
  markup into option elements.  Host notification, console, dialog and chat
  primitives are recorded as effects and do not throw.
-/

namespace Kumu

/-! ## Values -/

/-- JavaScript values reachable by the plugin: parsed JSON plus `undefined`.
A number carries the text that ToString prints for it. -/
inductive JSVal where
  | undefined
  | null
  | bool (b : Bool)
  | num (text : String)
  | str (s : String)
  | arr (items : List JSVal)
  | obj (fields : List (String × JSVal))

/-- What a `throw` (or a rejected promise) carries. -/
inductive Thrown where
  | error (message : String)
  | typeError
  | rejection (reason : String)
  deriving DecidableEq

/-- Number of UTF-16 code units of a string (`String.prototype.length`). -/
def utf16Length (s : String) : Nat :=
  (s.data.map fun c => if c.val.toNat < 65536 then 1 else 2).sum

/-- ToBoolean.  The falsy numbers are the zeros, which print as `0`, and NaN. -/
def truthy : JSVal → Bool
  | .undefined => false
  | .null => false
  | .bool b => b
  | .num text => text != "0" && text != "NaN"
  | .str s => s != ""
  | .arr _ => true
  | .obj _ => true

/-- Property read `v.key`, for the names the plugin reads (`rows`, `length`,
`id`, `value`, `attributes`, `label`, `image`, `description`): own data
properties of parsed objects, `length` of strings and arrays, `undefined`
otherwise, and a TypeError on `undefined` and `null`. -/
def getProp (v : JSVal) (key : String) : Except Thrown JSVal :=
  match v with
  | .undefined => .error .typeError
  | .null => .error .typeError
  | .bool _ => .ok .undefined
  | .num _ => .ok .undefined
  | .str s => if key = "length" then .ok (.num (toString (utf16Length s))) else .ok .undefined
  | .arr items => if key = "length" then .ok (.num (toString items.length)) else .ok .undefined
  | .obj fields => .ok ((fields.lookup key).getD .undefined)

/-- Receiver of an array method call (`rows.map`, `rows.find`): only arrays
have a callable `map` / `find`; on anything else the call is a TypeError. -/
def arrayReceiver : JSVal → Except Thrown (List JSVal)
  | .arr items => .ok items
  | _ => .error .typeError

/-- One element inside `join`: `undefined` and `null` print as nothing, any
other element as its ToString `text`. -/
def elemStr (v : JSVal) (text : Except Thrown String) : Except Thrown String :=
  match v with
  | .undefined => .ok ""
  | .null => .ok ""
  | _ => text

mutual
/-- ToString, as applied by template literals. -/
def toStr : JSVal → Except Thrown String
  | .undefined => .ok "undefined"
  | .null => .ok "null"
  | .bool b => .ok (if b then "true" else "false")
  | .num text => .ok text
  | .str s => .ok s
  | .arr items => joinStr items
  | .obj fields =>
    if (fields.lookup "toString").isSome then .error .typeError
    else .ok "[object Object]"
/-- The body of `Array.prototype.join(",")`. -/
def joinStr : List JSVal → Except Thrown String
  | [] => .ok ""
  | x :: rest =>
    match elemStr x (toStr x) with
    | .error e => .error e
    | .ok a =>
      match rest, joinStr rest with
      | [], _ => .ok a
      | _ :: _, .error e => .error e
      | _ :: _, .ok b => .ok (a ++ "," ++ b)
end

/-- The operator `a === b` with a string or `null` on the right. -/
def strictEq (a : JSVal) (b : Option String) : Bool :=
  match a, b with
  | .str s, some t => s == t
  | .null, none => true
  | _, _ => false

/-- The method `String.prototype.includes`: is `needle` a substring of `hay`. -/
def includes (hay needle : String) : Bool :=
  hay.data.tails.any fun t => needle.data.isPrefixOf t

/-! ## Effects and runs -/

/-- Host-visible effects. -/
inductive Effect where
  | httpGet (url : String)
  | consoleError (message : String) (err : Thrown)
  | notifyError (message : String)
  | notifyWarn (message : String)
  | notifyInfo (message : String)
  | dialogRender (title content : String)
  | chatCreate (content : String) (whisper : List String)
  deriving DecidableEq

/-- A run: the effects performed, in order, and the completion. -/
structure Run (α : Type) where
  trace : List Effect
  result : Except Thrown α

/-- Sequencing: the second part runs only if the first completed normally. -/
def Run.bind {α β : Type} (m : Run α) (f : α → Run β) : Run β :=
  match m.result with
  | .ok a => ⟨m.trace ++ (f a).trace, (f a).result⟩
  | .error e => ⟨m.trace, .error e⟩

instance : Monad Run where
  pure a := ⟨[], .ok a⟩
  bind := Run.bind

/-- Perform one effect. -/
def emit (e : Effect) : Run Unit := ⟨[e], .ok ()⟩

/-- The statement `throw e`. -/
def raise {α : Type} (e : Thrown) : Run α := ⟨[], .error e⟩

/-- An expression that may throw but has no effect. -/
def liftE {α : Type} (x : Except Thrown α) : Run α := ⟨[], x⟩

/-- The statement `try { body } catch (err) { handler }`. -/
def tryCatch {α : Type} (body : Run α) (handler : Thrown → Run α) : Run α :=
  match body.result with
  | .ok a => ⟨body.trace, .ok a⟩
  | .error e => ⟨body.trace ++ (handler e).trace, (handler e).result⟩

/-! ## Host -/

/-- An HTTP response as seen through the Fetch API. -/
structure Response where
  status : Nat
  statusText : String
  json : Except Thrown JSVal

/-- The getter `response.ok`: the status is in the range 200-299. -/
def Response.ok (r : Response) : Bool :=
  decide (200 ≤ r.status) && decide (r.status ≤ 299)

/-- What `fetch(url)` settles to. -/
inductive FetchOutcome where
  | rejected (err : Thrown)
  | responded (r : Response)

/-- The host environment.  `parseOptions content` is what the HTML parser of
the host makes of the dialog body: the `value` and the text content of each
option element of the selector, in document order. -/
structure Host where
  baseUrl : String
  fetch : String → FetchOutcome
  toLowerCase : String → String
  getWhisperRecipients : String → List String
  parseOptions : String → List (String × String)

/-- The expression `await fetch(url)`. -/
def awaitFetch (h : Host) (url : String) : Run Response :=
  match h.fetch url with
  | .rejected err => ⟨[.httpGet url], .error err⟩
  | .responded r => ⟨[.httpGet url], .ok r⟩

/-! ## fetchNames -/

/-- The request URL built by `fetchNames`. -/
def apiUrl (h : Host) : String :=
  h.baseUrl ++ "/couch/_design/resources/_view/all?key=\"Element\""

/-- The function `KumuElementDisplayPlugin.fetchNames`. -/
def fetchNames (h : Host) : Run JSVal :=
  tryCatch
    (do
      let response ← awaitFetch h (apiUrl h)
      if !response.ok then
        (raise (.error ("Failed to fetch names: " ++ response.statusText)) : Run Unit)
      let data ← liftE response.json
      let rows ← liftE (getProp data "rows")
      pure (if truthy rows then rows else .arr []))
    (fun err => do
      emit (.consoleError "Kumu Relationship Map Element Foundry Display | Error fetching names:" err)
      emit (.notifyError "Failed to fetch names from API.")
      pure (.arr []))

/-! ## openNameSelector -/

/-- An option element of the selector: its `value`, its text content and
whether it is displayed. -/
structure OptionEl where
  value : String
  text : String
  shown : Bool
  deriving DecidableEq

/-- The callback of `rows.map`, lines 85-88: the markup of one option. -/
def optionMarkup (row : JSVal) : Except Thrown String := do
  let value ← getProp row "value"
  let attributes ← getProp value "attributes"
  let label ← getProp attributes "label"
  let id ← getProp row "id"
  let idText ← toStr id
  let labelText ← toStr label
  pure ("<option value=\"" ++ idText ++ "\">" ++ labelText ++ "</option>")

/-- The loop of `rows.map`: stops at the first row whose callback throws. -/
def mapRows : List JSVal → Except Thrown (List String)
  | [] => .ok []
  | row :: rest =>
    match optionMarkup row with
    | .error e => .error e
    | .ok o =>
      match mapRows rest with
      | .error e => .error e
      | .ok os => .ok (o :: os)

/-- The dialog body, lines 90-100. -/
def dialogContent (options : String) : String :=
  "\n      <div>\n        <label for=\"name-selector-search\">Search for a Name:</label>\n        <input type=\"text\" id=\"name-selector-search\" style=\"width:100%; margin-bottom:10px;\">\n\n        <label for=\"name-selector\">Select a Name:</label>\n        <select id=\"name-selector\" style=\"width:100%;\">\n          "
    ++ options ++ "\n        </select>\n      </div>\n    "

/-- The state of an open dialog: the rows captured by the callbacks, the value
of the search field, the value of the selector (`none` for `null`) and the
option elements. -/
structure Dialog where
  rows : List JSVal
  search : String
  selected : Option String
  options : List OptionEl

/-- The function `KumuElementDisplayPlugin.openNameSelector`: the dialog it
opens, if any.  The option elements are the ones the host parses out of the
rendered body; a freshly rendered selector has every option shown and its
first option selected. -/
def openNameSelector (h : Host) : Run (Option Dialog) := do
  let rows ← fetchNames h
  let len ← liftE (getProp rows "length")
  if !truthy len then do
    emit (.notifyWarn "No names found in the API.")
    pure none
  else do
    let items ← liftE (arrayReceiver rows)
    let markups ← liftE (mapRows items)
    let options := String.join markups
    let content := dialogContent options
    emit (.dialogRender "Select Name" content)
    let els : List OptionEl := (h.parseOptions content).map
      (fun p => { value := p.1, text := p.2, shown := true })
    let selected := els.head?.map OptionEl.value
    pure (some { rows := items, search := "", selected := selected, options := els })

/-! ## showImageToPlayers -/

/-- The chat message body, lines 146-152. -/
def chatContent (label imageUrl description : String) : String :=
  "\n        <div style=\"text-align: center;\">\n          <h2>" ++ label
    ++ "</h2>\n          <img src=\"" ++ imageUrl
    ++ "\" style=\"max-width:100%; border:1px solid #ccc; margin-top:10px;\">\n          <p>"
    ++ description ++ "</p>\n        </div>\n      "

/-- The function `KumuElementDisplayPlugin.showImageToPlayers`. -/
def showImageToPlayers (h : Host) (row : JSVal) : Run Unit := do
  let value ← liftE (getProp row "value")
  let attributes ← liftE (getProp value "attributes")
  let label ← liftE (getProp attributes "label")
  let value2 ← liftE (getProp row "value")
  let attributes2 ← liftE (getProp value2 "attributes")
  let imageUrl ← liftE (getProp attributes2 "image")
  let value3 ← liftE (getProp row "value")
  let attributes3 ← liftE (getProp value3 "attributes")
  let described ← liftE (getProp attributes3 "description")
  let description := if truthy described then described else .str ""
  let labelText ← liftE (toStr label)
  let imageText ← liftE (toStr imageUrl)
  let descriptionText ← liftE (toStr description)
  emit (.chatCreate (chatContent labelText imageText descriptionText) (h.getWhisperRecipients "GM"))
  let labelText2 ← liftE (toStr label)
  emit (.notifyInfo (labelText2 ++ "\x27s image is now shown to players."))

/-! ## Dialog callbacks -/

/-- The input handler of the search field, lines 109-115. -/
def onSearchInput (h : Host) (d : Dialog) : Dialog :=
  let filter := h.toLowerCase d.search
  { d with options := d.options.map fun o =>
      { o with shown := includes (h.toLowerCase o.text) filter } }

/-- The user edits the search field to `text`; the browser fires `input`. -/
def typeSearch (h : Host) (d : Dialog) (text : String) : Dialog :=
  onSearchInput h { d with search := text }

/-- The user picks the option with the given value in the selector. -/
def chooseOption (d : Dialog) (value : String) : Dialog :=
  { d with selected := some value }

/-- The loop of `rows.find(row => row.id === selectedId)`. -/
def findRow (selectedId : Option String) : List JSVal → Except Thrown JSVal
  | [] => .ok .undefined
  | row :: rest =>
    match getProp row "id" with
    | .error e => .error e
    | .ok id => if strictEq id selectedId then .ok row else findRow selectedId rest

/-- The callback of the `show` button, lines 120-126. -/
def showCallback (h : Host) (d : Dialog) : Run Unit := do
  let selectedId := d.selected
  let selectedRow ← liftE (findRow selectedId d.rows)
  if truthy selectedRow then showImageToPlayers h selectedRow else pure ()

/-- The `buttons` of the dialog, lines 117-131: `show` has a callback,
`cancel` has none. -/
def buttonCallback (name : String) : Option (Host → Dialog → Run Unit) :=
  if name = "show" then some showCallback
  else none

/-- The host presses a dialog button: it runs the callback of that button, if
the button has one, and closes the dialog. -/
def pressButton (h : Host) (d : Dialog) (name : String) : Run Unit :=
  match buttonCallback name with
  | some callback => callback h d
  | none => pure ()

/-! ## Observations on traces -/

/-- Is the effect an error notification. -/
def Effect.isNotifyError : Effect → Bool
  | .notifyError _ => true
  | _ => false

/-- Is the effect a warning notification. -/
def Effect.isNotifyWarn : Effect → Bool
  | .notifyWarn _ => true
  | _ => false

/-- Is the effect a notification of any level. -/
def Effect.isNotification : Effect → Bool
  | .notifyError _ => true
  | .notifyWarn _ => true
  | .notifyInfo _ => true
  | _ => false

/-- Is the effect a console error log. -/
def Effect.isConsoleError : Effect → Bool
  | .consoleError _ _ => true
  | _ => false

/-- Is the effect the rendering of a dialog. -/
def Effect.isDialog : Effect → Bool
  | .dialogRender _ _ => true
  | _ => false

/-- Is the effect the creation of a chat message. -/
def Effect.isChat : Effect → Bool
  | .chatCreate _ _ => true
  | _ => false

/-! ## Predicates of the specification -/

/-- The failure class of the specification: the request is rejected (network
error), the status is not 2xx, or the body cannot be parsed as JSON. -/
def fetchFails : FetchOutcome → Bool
  | .rejected _ => true
  | .responded r =>
    !r.ok || (match r.json with
      | .error _ => true
      | .ok _ => false)

/-- Does a parsed body carry a field of the given name. -/
def hasField (v : JSVal) (key : String) : Bool :=
  match v with
  | .obj fields => (fields.lookup key).isSome
  | _ => false

/-- Is the value a string. -/
def isString : JSVal → Bool
  | .str _ => true
  | _ => false

/-- The row shape of the specification:
`{ id: string, value: { attributes: { label, image, description? } } }`. -/
def isRecordRow : JSVal → Bool
  | .obj fields =>
    match fields.lookup "id", fields.lookup "value" with
    | some (.str _), some (.obj valueFields) =>
      match valueFields.lookup "attributes" with
      | some (.obj attrs) =>
        (match attrs.lookup "label" with
          | some (.str _) => true
          | _ => false)
        && (match attrs.lookup "image" with
          | some (.str _) => true
          | _ => false)
        && (match attrs.lookup "description" with
          | none => true
          | some (.str _) => true
          | _ => false)
      | _ => false
    | _, _ => false
  | _ => false

/-- The body shape of the specification: an object with a field `rows`, an
ordered sequence of rows of the shape above. -/
def expectedShape : JSVal → Bool
  | .obj fields =>
    match fields.lookup "rows" with
    | some (.arr items) => items.all isRecordRow
    | _ => false
  | _ => false

/-! ## A model of the host parser -/

/-- A piece of markup: a tag (what stands between `<` and `>`) or character
data. -/
inductive Token where
  | tag (body : List Char)
  | chars (data : List Char)

/-- Where the tokenizer stands: in character data, inside a tag, inside a tag
right after `=`, or inside a double-quoted attribute value. -/
inductive Mode where
  | data
  | tag
  | afterEq
  | quoted

/-- Does a `<` followed by these characters open a tag. -/
def opensTag : List Char → Bool
  | [] => false
  | c :: _ => c.isAlpha || c == '/'

/-- Cut markup into tags and character data.  A `>` inside a double-quoted
attribute value does not close the tag, and a quote opens a value only right
after `=`. -/
def tokenize : List Char → Mode → List Char → List Token
  | [], .data, acc => [.chars acc.reverse]
  | [], _, _ => []
  | c :: cs, .data, acc =>
    if c == '<' && opensTag cs then .chars acc.reverse :: tokenize cs .tag []
    else tokenize cs .data (c :: acc)
  | c :: cs, .tag, acc =>
    if c == '>' then .tag acc.reverse :: tokenize cs .data []
    else if c == '=' then tokenize cs .afterEq (c :: acc)
    else tokenize cs .tag (c :: acc)
  | c :: cs, .afterEq, acc =>
    if c == '>' then .tag acc.reverse :: tokenize cs .data []
    else if c == '"' then tokenize cs .quoted (c :: acc)
    else tokenize cs .tag (c :: acc)
  | c :: cs, .quoted, acc =>
    if c == '"' then tokenize cs .tag (c :: acc)
    else tokenize cs .quoted (c :: acc)

/-- Replace the character references `&amp;`, `&lt;`, `&gt;` and `&quot;` by
the characters they stand for; `skip` characters are still to be dropped. -/
def decodeRefs : List Char → Nat → List Char
  | [], _ => []
  | _ :: cs, skip + 1 => decodeRefs cs skip
  | c :: cs, 0 =>
    if "&amp;".data.isPrefixOf (c :: cs) then '&' :: decodeRefs cs 4
    else if "&lt;".data.isPrefixOf (c :: cs) then '<' :: decodeRefs cs 3
    else if "&gt;".data.isPrefixOf (c :: cs) then '>' :: decodeRefs cs 3
    else if "&quot;".data.isPrefixOf (c :: cs) then '"' :: decodeRefs cs 5
    else c :: decodeRefs cs 0

/-- The double-quoted `value` attribute of a tag body, if it has one. -/
def valueAttr : List Char → Option (List Char)
  | [] => none
  | c :: cs =>
    if " value=\"".data.isPrefixOf (c :: cs) then
      some (decodeRefs ((cs.drop 7).takeWhile fun x => x != '"') 0)
    else valueAttr cs

/-- Is the tag body the start tag of an option element. -/
def isOptionStart (body : List Char) : Bool :=
  body == "option".data || "option ".data.isPrefixOf body

/-- Does the tag end the option element that is open. -/
def endsOption (body : List Char) : Bool :=
  body == "/option".data || body == "/select".data

/-- The option that is open, as a `value` and text pair; an option without a
`value` attribute has its text as value. -/
def closeOption : Option (Option (List Char) × List Char) → List (String × String)
  | none => []
  | some (value, text) => [(String.mk (value.getD text), String.mk text)]

/-- Walk the tokens and collect the option elements: character data inside an
option is its text, other tags inside an option are ignored. -/
def collectOptions : List Token → Option (Option (List Char) × List Char) →
    List (String × String)
  | [], current => closeOption current
  | .chars d :: rest, some (value, text) =>
    collectOptions rest (some (value, text ++ decodeRefs d 0))
  | .chars _ :: rest, none => collectOptions rest none
  | .tag body :: rest, current =>
    if isOptionStart body then
      closeOption current ++ collectOptions rest (some (valueAttr body, []))
    else if endsOption body then closeOption current ++ collectOptions rest none
    else collectOptions rest current

/-- A model of the HTML parser of the browser on the dialog body, for markup
with double-quoted attribute values and the character references `&amp;`,
`&lt;`, `&gt;` and `&quot;`: the option elements it builds. -/
def parseOptionMarkup (content : String) : List (String × String) :=
  collectOptions (tokenize content.data .data []) none

/-! ## Sample data -/

/-- ASCII lower-casing, which agrees with `toLowerCase` on ASCII text. -/
def asciiLower (s : String) : String := ⟨s.data.map Char.toLower⟩

/-- A record labelled Apple, without description. -/
def appleRow : JSVal :=
  .obj [("id", .str "a1"), ("value", .obj [("attributes",
    .obj [("label", .str "Apple"), ("image", .str "https://example.com/apple.png")])])]

/-- A record labelled Banana, with a description. -/
def bananaRow : JSVal :=
  .obj [("id", .str "b2"), ("value", .obj [("attributes",
    .obj [("label", .str "Banana"), ("image", .str "https://example.com/banana.png"),
      ("description", .str "A yellow fruit")])])]

/-- A host whose every request settles to the given outcome. -/
def hostWith (outcome : FetchOutcome) : Host :=
  { baseUrl := "https://example.com"
    fetch := fun _ => outcome
    toLowerCase := asciiLower
    getWhisperRecipients := fun role => if role = "GM" then ["gamemaster"] else []
    parseOptions := parseOptionMarkup }

/-- A host answering 200 with the given body. -/
def hostServing (body : JSVal) : Host :=
  hostWith (.responded { status := 200, statusText := "OK", json := .ok body })

/-- A host serving the two fruit records. -/
def fruitHost : Host := hostServing (.obj [("rows", .arr [appleRow, bananaRow])])

/-- A parsed body whose `rows` holds an element without `value.attributes`. -/
def malformedBody : JSVal := .obj [("rows", .arr [.obj [("id", .str "a1")]])]

/-- A record whose label holds a character reference. -/
def fishRow : JSVal :=
  .obj [("id", .str "f1"), ("value", .obj [("attributes",
    .obj [("label", .str "Fish &amp; Chips"), ("image", .str "https://example.com/fish.png")])])]

/-- A host serving the one record above. -/
def fishHost : Host := hostServing (.obj [("rows", .arr [fishRow])])

/-- The dialog over the record above, as rendered: the text of the option is
the parsed label. -/
def fishDialog : Dialog :=
  { rows := [fishRow]
    search := ""
    selected := some "f1"
    options := [⟨"f1", "Fish & Chips", true⟩] }

/-- A dialog over the two fruit records, as rendered. -/
def fruitDialog : Dialog :=
  { rows := [appleRow, bananaRow]
    search := ""
    selected := some "a1"
    options := [⟨"a1", "Apple", true⟩, ⟨"b2", "Banana", true⟩] }

/-! ## Basic facts -/

theorem run_ext {α : Type} (m : Run α) : (⟨m.trace, m.result⟩ : Run α) = m := by
  cases m; rfl

theorem liftE_ok_bind {α β : Type} (a : α) (f : α → Run β) :
    (liftE (Except.ok a) >>= f) = f a := by
  show Run.bind (liftE (Except.ok a)) f = f a
  simp [Run.bind, liftE, run_ext]

/-- A failing fetch: `fetchNames` logs, notifies and returns the empty list. -/
theorem fetchNames_of_fails (h : Host) (hf : fetchFails (h.fetch (apiUrl h)) = true) :
    ∃ err, fetchNames h =
      ⟨[.httpGet (apiUrl h),
        .consoleError "Kumu Relationship Map Element Foundry Display | Error fetching names:" err,
        .notifyError "Failed to fetch names from API."], .ok (.arr [])⟩ := by
  cases hout : h.fetch (apiUrl h) with
  | rejected err =>
    exact ⟨err, by simp [fetchNames, tryCatch, awaitFetch, hout, bind, Run.bind, pure, emit]⟩
  | responded r =>
    rw [hout] at hf
    by_cases hok : r.ok = true
    · cases hj : r.json with
      | ok d => simp [fetchFails, hok, hj] at hf
      | error e =>
        exact ⟨e, by simp [fetchNames, tryCatch, awaitFetch, hout, bind, Run.bind, pure, emit,
          raise, liftE, hok, hj]⟩
    · exact ⟨.error ("Failed to fetch names: " ++ r.statusText), by
        simp [fetchNames, tryCatch, awaitFetch, hout, bind, Run.bind, pure, emit, raise, hok]⟩

/-- A successful fetch whose body parses: what `fetchNames` does. -/
theorem fetchNames_of_body (h : Host) (r : Response) (d : JSVal)
    (hout : h.fetch (apiUrl h) = .responded r) (hok : r.ok = true) (hj : r.json = .ok d) :
    fetchNames h =
      match getProp d "rows" with
      | .ok rows => ⟨[.httpGet (apiUrl h)], .ok (if truthy rows then rows else .arr [])⟩
      | .error err =>
        ⟨[.httpGet (apiUrl h),
          .consoleError "Kumu Relationship Map Element Foundry Display | Error fetching names:" err,
          .notifyError "Failed to fetch names from API."], .ok (.arr [])⟩ := by
  cases hg : getProp d "rows" with
  | ok rows =>
    simp [fetchNames, tryCatch, awaitFetch, hout, bind, Run.bind, pure, emit, raise, liftE,
      hok, hj, hg]
  | error e =>
    simp [fetchNames, tryCatch, awaitFetch, hout, bind, Run.bind, pure, emit, raise, liftE,
      hok, hj, hg]

/-- The effects of `fetchNames` are the request alone, or the request followed
by one console error and one error notification. -/
theorem fetchNames_trace (h : Host) :
    (fetchNames h).trace = [.httpGet (apiUrl h)] ∨
    ∃ err, (fetchNames h).trace =
      [.httpGet (apiUrl h),
        .consoleError "Kumu Relationship Map Element Foundry Display | Error fetching names:" err,
        .notifyError "Failed to fetch names from API."] := by
  by_cases hf : fetchFails (h.fetch (apiUrl h)) = true
  · obtain ⟨err, he⟩ := fetchNames_of_fails h hf
    exact Or.inr ⟨err, by rw [he]⟩
  · cases hout : h.fetch (apiUrl h) with
    | rejected err => simp [fetchFails, hout] at hf
    | responded r =>
      cases hj : r.json with
      | error e => simp [fetchFails, hout, hj] at hf
      | ok d =>
        have hok : r.ok = true := by
          cases hk : r.ok with
          | true => rfl
          | false => simp [fetchFails, hout, hk] at hf
        rw [fetchNames_of_body h r d hout hok hj]
        cases getProp d "rows" with
        | ok rows => exact Or.inl rfl
        | error e => exact Or.inr ⟨e, rfl⟩

/-- With an empty fetch result `openNameSelector` warns and opens nothing. -/
theorem openNameSelector_of_empty (h : Host) (hempty : (fetchNames h).result = .ok (.arr [])) :
    openNameSelector h =
      ⟨(fetchNames h).trace ++ [.notifyWarn "No names found in the API."], .ok none⟩ := by
  have hzero : toString (0 : Nat) = "0" := rfl
  simp [openNameSelector, bind, Run.bind, hempty, liftE, getProp, truthy, emit, pure, hzero]

/-- The method `includes` decides the substring relation. -/
theorem includes_iff (hay needle : String) :
    includes hay needle = true ↔ needle.data <:+: hay.data := by
  simp only [includes, List.any_eq_true, List.mem_tails, List.isPrefixOf_iff_prefix]
  constructor
  · rintro ⟨t, hsuf, hpre⟩
    exact List.infix_iff_prefix_suffix.mpr ⟨t, hpre, hsuf⟩
  · intro hin
    obtain ⟨t, hpre, hsuf⟩ := List.infix_iff_prefix_suffix.mp hin
    exact ⟨t, hsuf, hpre⟩

/-- A string occurring between two others is a substring of the whole. -/
theorem substring_of_eq (before needle after whole : String)
    (hw : whole = before ++ needle ++ after) : needle.data <:+: whole.data :=
  ⟨before.data, after.data, by rw [hw]; simp [String.data_append]⟩

/-- The options after the user typed `text`. -/
theorem typeSearch_options (h : Host) (d : Dialog) (text : String) :
    (typeSearch h d text).options = d.options.map fun o =>
      { o with shown := includes (h.toLowerCase o.text) (h.toLowerCase text) } := rfl

/-- A keystroke overrides the visibility left by the keystroke before it. -/
theorem typeSearch_twice (h : Host) (d : Dialog) (s t : String) :
    (typeSearch h (typeSearch h d s) t).options = (typeSearch h d t).options := by
  simp [typeSearch_options, List.map_map, Function.comp_def]

/-- Earlier keystrokes do not influence the options after a keystroke. -/
theorem typeSearch_history (h : Host) (earlier : List String) (text : String) :
    ∀ d : Dialog, (typeSearch h (earlier.foldl (typeSearch h) d) text).options
      = (typeSearch h d text).options := by
  induction earlier with
  | nil => intro d; rfl
  | cons s rest ih =>
    intro d
    rw [List.foldl_cons, ih (typeSearch h d s), typeSearch_twice]

/-- The loop of `find` returns the row carrying the selected identifier when
identifiers are pairwise distinct strings. -/
theorem findRow_of_distinct (sel : String) (r : JSVal) (hsel : getProp r "id" = .ok (.str sel)) :
    ∀ (rows : List JSVal) (ids : List String),
      rows.map (fun row => getProp row "id") = ids.map (fun s => Except.ok (JSVal.str s)) →
      ids.Nodup → r ∈ rows → findRow (some sel) rows = .ok r := by
  intro rows
  induction rows with
  | nil => intro ids _ _ hr; cases hr
  | cons row rest ih =>
    intro ids hids hnd hr
    cases ids with
    | nil => simp at hids
    | cons i is =>
      simp only [List.map_cons, List.cons.injEq] at hids
      obtain ⟨hrow, hrest⟩ := hids
      rw [List.nodup_cons] at hnd
      by_cases hi : i = sel
      · subst hi
        have hrr : r = row := by
          rcases List.mem_cons.mp hr with hrow2 | hin
          · exact hrow2
          · exfalso
            apply hnd.1
            have hmem : getProp r "id" ∈ rest.map (fun row => getProp row "id") :=
              List.mem_map.mpr ⟨r, hin, rfl⟩
            rw [hrest, hsel] at hmem
            obtain ⟨s, hs, hse⟩ := List.mem_map.mp hmem
            simp only [Except.ok.injEq, JSVal.str.injEq] at hse
            rw [← hse]
            exact hs
        subst hrr
        simp [findRow, hrow, strictEq]
      · have hne : r ≠ row := by
          intro hc
          subst hc
          rw [hsel] at hrow
          simp only [Except.ok.injEq, JSVal.str.injEq] at hrow
          exact hi hrow.symm
        have hin : r ∈ rest := by
          rcases List.mem_cons.mp hr with hrow2 | hin
          · exact absurd hrow2 hne
          · exact hin
        simp only [findRow, hrow, strictEq, beq_iff_eq, hi, if_false]
        exact ih is hrest hnd.2 hin

/-- A value with a string `id` is an object, hence truthy. -/
theorem truthy_of_id (r : JSVal) (sel : String) (hsel : getProp r "id" = .ok (.str sel)) :
    truthy r = true := by
  cases r with
  | undefined => simp [getProp] at hsel
  | null => simp [getProp] at hsel
  | bool b => simp [getProp] at hsel
  | num n => simp [getProp] at hsel
  | str s => by_cases hk : "id" = "length" <;> simp [getProp] at hsel
  | arr items => by_cases hk : "id" = "length" <;> simp [getProp] at hsel
  | obj fields => rfl

/-- What `showImageToPlayers` does on a row whose label and image are strings
and whose description prints as `descText`. -/
theorem showImageToPlayers_of_record (h : Host) (row value attrs desc : JSVal)
    (label image descText : String)
    (hv : getProp row "value" = .ok value) (ha : getProp value "attributes" = .ok attrs)
    (hl : getProp attrs "label" = .ok (.str label))
    (hi : getProp attrs "image" = .ok (.str image))
    (hd : getProp attrs "description" = .ok desc)
    (ht : toStr (if truthy desc then desc else .str "") = .ok descText) :
    showImageToPlayers h row =
      ⟨[.chatCreate (chatContent label image descText) (h.getWhisperRecipients "GM"),
        .notifyInfo (label ++ "\x27s image is now shown to players.")], .ok ()⟩ := by
  simp [showImageToPlayers, hv, ha, hl, hi, hd, ht, bind, Run.bind, liftE, emit, toStr]

/-- What a successful callback of `rows.map` has read and written. -/
theorem optionMarkup_ok (row : JSVal) (m : String) (hm : optionMarkup row = .ok m) :
    ∃ value attrs label id idText labelText,
      getProp row "value" = .ok value ∧ getProp value "attributes" = .ok attrs ∧
      getProp attrs "label" = .ok label ∧ getProp row "id" = .ok id ∧
      toStr id = .ok idText ∧ toStr label = .ok labelText ∧
      m = "<option value=\"" ++ idText ++ "\">" ++ labelText ++ "</option>" := by
  cases hv : getProp row "value" with
  | error e => simp [optionMarkup, hv, bind, Except.bind] at hm
  | ok value =>
    cases ha : getProp value "attributes" with
    | error e => simp [optionMarkup, hv, ha, bind, Except.bind] at hm
    | ok attrs =>
      cases hl : getProp attrs "label" with
      | error e => simp [optionMarkup, hv, ha, hl, bind, Except.bind] at hm
      | ok label =>
        cases hi : getProp row "id" with
        | error e => simp [optionMarkup, hv, ha, hl, hi, bind, Except.bind] at hm
        | ok id =>
          cases hit : toStr id with
          | error e => simp [optionMarkup, hv, ha, hl, hi, hit, bind, Except.bind] at hm
          | ok idText =>
            cases hlt : toStr label with
            | error e =>
              simp [optionMarkup, hv, ha, hl, hi, hit, hlt, bind, Except.bind] at hm
            | ok labelText =>
              simp [optionMarkup, hv, ha, hl, hi, hit, hlt, bind, Except.bind, pure,
                Except.pure] at hm
              exact ⟨value, attrs, label, id, idText, labelText, rfl, ha, hl, rfl, hit, hlt,
                hm.symm⟩

/-- A successful `rows.map` wrote one option per row, from the string forms
of its identifier and label. -/
theorem mapRows_cells : ∀ (items : List JSVal) (markups : List String),
    mapRows items = .ok markups →
    ∃ cells : List (String × String),
      List.Forall₂ (fun row cell => ∃ value attrs label id,
        getProp row "value" = .ok value ∧ getProp value "attributes" = .ok attrs ∧
        getProp attrs "label" = .ok label ∧ getProp row "id" = .ok id ∧
        toStr id = .ok cell.1 ∧ toStr label = .ok cell.2) items cells ∧
      cells.map (fun cell => "<option value=\"" ++ cell.1 ++ "\">" ++ cell.2 ++ "</option>")
        = markups := by
  intro items
  induction items with
  | nil =>
    intro markups hm
    simp only [mapRows, Except.ok.injEq] at hm
    subst hm
    exact ⟨[], List.Forall₂.nil, rfl⟩
  | cons row rest ih =>
    intro markups hm
    cases ho : optionMarkup row with
    | error e => simp [mapRows, ho] at hm
    | ok m =>
      cases hr : mapRows rest with
      | error e => simp [mapRows, ho, hr] at hm
      | ok ms =>
        simp only [mapRows, ho, hr, Except.ok.injEq] at hm
        subst hm
        obtain ⟨cells, hcells, hmk⟩ := ih ms hr
        obtain ⟨value, attrs, label, id, idText, labelText, hv, ha, hl, hi, hit, hlt, hmeq⟩ :=
          optionMarkup_ok row m ho
        refine ⟨(idText, labelText) :: cells, List.Forall₂.cons ?_ hcells, ?_⟩
        · exact ⟨value, attrs, label, id, hv, ha, hl, hi, hit, hlt⟩
        · simp [hmk, hmeq]

/-- An opened dialog carries the options the host parsed from the body that
`rows.map` wrote for its rows. -/
theorem openNameSelector_opened (h : Host) (d0 : Dialog)
    (hopen : (openNameSelector h).result = .ok (some d0)) :
    ∃ markups, mapRows d0.rows = .ok markups ∧
      d0.options = (h.parseOptions (dialogContent (String.join markups))).map
        (fun p => { value := p.1, text := p.2, shown := true }) := by
  unfold openNameSelector at hopen
  cases hf : (fetchNames h).result with
  | error e => simp [bind, Run.bind, hf] at hopen
  | ok rows =>
    cases hlen : getProp rows "length" with
    | error e => simp [bind, Run.bind, hf, hlen, liftE] at hopen
    | ok len =>
      cases htr : truthy len with
      | false => simp [bind, Run.bind, hf, hlen, liftE, htr, emit, pure] at hopen
      | true =>
        cases hrecv : arrayReceiver rows with
        | error e => simp [bind, Run.bind, hf, hlen, liftE, htr, hrecv] at hopen
        | ok items =>
          cases hmap : mapRows items with
          | error e => simp [bind, Run.bind, hf, hlen, liftE, htr, hrecv, hmap] at hopen
          | ok markups =>
            simp [bind, Run.bind, hf, hlen, liftE, htr, hrecv, hmap, emit, pure] at hopen
            subst hopen
            exact ⟨markups, hmap, rfl⟩

/-! ## Claims -/

/-- C1: for every failing fetch (the request rejects, the status is not 2xx,
or the body does not parse), `fetchNames` resolves to the empty list, produces
exactly one error notification and one console error log, and does not raise. -/
theorem fetchNames_failure_contained (h : Host)
    (hf : fetchFails (h.fetch (apiUrl h)) = true) :
    (fetchNames h).result = .ok (.arr []) ∧
    (fetchNames h).trace.countP Effect.isNotifyError = 1 ∧
    (fetchNames h).trace.countP Effect.isConsoleError = 1 := by
  obtain ⟨err, he⟩ := fetchNames_of_fails h hf
  rw [he]
  exact ⟨rfl, rfl, rfl⟩

theorem fetchNames_failure_contained_witness :
    fetchFails ((hostWith (.responded ⟨404, "Not Found", .ok .null⟩)).fetch
      (apiUrl (hostWith (.responded ⟨404, "Not Found", .ok .null⟩)))) = true ∧
    (fetchNames (hostWith (.responded ⟨404, "Not Found", .ok .null⟩))).result = .ok (.arr []) ∧
    (fetchNames (hostWith (.responded ⟨404, "Not Found", .ok .null⟩))).trace.countP
      Effect.isNotifyError = 1 ∧
    (fetchNames (hostWith (.responded ⟨404, "Not Found", .ok .null⟩))).trace.countP
      Effect.isConsoleError = 1 :=
  ⟨by decide, fetchNames_failure_contained _ (by decide)⟩

/-- C2: for every 2xx response whose parsed body has no `rows` field,
`fetchNames` returns the empty list and does not raise. -/
theorem fetchNames_missing_rows (h : Host) (r : Response) (d : JSVal)
    (hout : h.fetch (apiUrl h) = .responded r) (hok : r.ok = true) (hj : r.json = .ok d)
    (hno : hasField d "rows" = false) :
    (fetchNames h).result = .ok (.arr []) := by
  rw [fetchNames_of_body h r d hout hok hj]
  cases d with
  | undefined => rfl
  | null => rfl
  | bool b => rfl
  | num n => rfl
  | str s => rfl
  | arr items => rfl
  | obj fields =>
    cases hl : fields.lookup "rows" with
    | none => simp [getProp, hl, truthy]
    | some v => simp [hasField, hl] at hno

theorem fetchNames_missing_rows_witness :
    (hostServing (.obj [("total_rows", .num "0")])).fetch
        (apiUrl (hostServing (.obj [("total_rows", .num "0")]))) =
      .responded ⟨200, "OK", .ok (.obj [("total_rows", .num "0")])⟩ ∧
    hasField (.obj [("total_rows", .num "0")]) "rows" = false ∧
    (fetchNames (hostServing (.obj [("total_rows", .num "0")]))).result = .ok (.arr []) :=
  ⟨rfl, by decide, fetchNames_missing_rows _ _ _ rfl (by decide) rfl (by decide)⟩

/-- C3, as stated, fails: the response is 2xx, the body is not of the expected
shape (its row lacks `value.attributes`), and `fetchNames` returns `rows` as it
is, which is not the empty list. -/
theorem malformed_rows_returned :
    (hostServing malformedBody).fetch (apiUrl (hostServing malformedBody)) =
      .responded ⟨200, "OK", .ok malformedBody⟩ ∧
    Response.ok ⟨200, "OK", .ok malformedBody⟩ = true ∧
    expectedShape malformedBody = false ∧
    (fetchNames (hostServing malformedBody)).result = .ok (.arr [.obj [("id", .str "a1")]]) ∧
    (fetchNames (hostServing malformedBody)).result ≠ .ok (.arr []) := by
  refine ⟨rfl, by decide, by decide, rfl, ?_⟩
  intro hc
  have hr : (fetchNames (hostServing malformedBody)).result
      = .ok (.arr [.obj [("id", .str "a1")]]) := rfl
  rw [hr] at hc
  simp at hc

/-- C3, amended: for every 2xx response whose parsed body is not of the
expected shape, `fetchNames` yields the empty list exactly when the body has no
truthy `rows` (reading it throws, or it is absent, null, false, 0 or the empty
string); a truthy `rows` of any shape is returned unchanged. -/
theorem fetchNames_unexpected_shape (h : Host) (r : Response) (d : JSVal)
    (hout : h.fetch (apiUrl h) = .responded r) (hok : r.ok = true) (hj : r.json = .ok d)
    (hshape : expectedShape d = false) :
    ((fetchNames h).result = .ok (.arr []) ↔
      ∀ rows, getProp d "rows" = .ok rows → truthy rows = false) ∧
    (∀ rows, getProp d "rows" = .ok rows → truthy rows = true →
      (fetchNames h).result = .ok rows) := by
  rw [fetchNames_of_body h r d hout hok hj]
  cases hg : getProp d "rows" with
  | error e => simp
  | ok rows =>
    cases ht : truthy rows with
    | false => simp [ht]
    | true =>
      simp only [ht, if_true, Except.ok.injEq, forall_eq', Bool.true_eq_false, iff_false,
        imp_self, and_true]
      intro hrows
      subst hrows
      cases d with
      | undefined => simp [getProp] at hg
      | null => simp [getProp] at hg
      | bool b => simp [getProp] at hg
      | num n => simp [getProp] at hg
      | str s => by_cases hk : "rows" = "length" <;> simp [getProp] at hg
      | arr items => by_cases hk : "rows" = "length" <;> simp [getProp] at hg
      | obj fields =>
        cases hl : fields.lookup "rows" with
        | none => simp [getProp, hl] at hg
        | some v =>
          simp [getProp, hl] at hg
          subst hg
          simp [expectedShape, hl] at hshape

theorem fetchNames_unexpected_shape_witness :
    (hostServing malformedBody).fetch (apiUrl (hostServing malformedBody)) =
      .responded ⟨200, "OK", .ok malformedBody⟩ ∧
    expectedShape malformedBody = false ∧
    (((fetchNames (hostServing malformedBody)).result = .ok (.arr []) ↔
      ∀ rows, getProp malformedBody "rows" = .ok rows → truthy rows = false) ∧
    (∀ rows, getProp malformedBody "rows" = .ok rows → truthy rows = true →
      (fetchNames (hostServing malformedBody)).result = .ok rows)) :=
  ⟨rfl, by decide, fetchNames_unexpected_shape _ _ _ rfl (by decide) rfl (by decide)⟩

/-- C4: whenever `fetchNames` returns the empty list, `openNameSelector` opens
no dialog, creates no chat message and produces exactly one warning
notification. -/
theorem openNameSelector_empty_warns (h : Host)
    (hempty : (fetchNames h).result = .ok (.arr [])) :
    (openNameSelector h).result = .ok none ∧
    (openNameSelector h).trace.countP Effect.isDialog = 0 ∧
    (openNameSelector h).trace.countP Effect.isChat = 0 ∧
    (openNameSelector h).trace.countP Effect.isNotifyWarn = 1 := by
  rw [openNameSelector_of_empty h hempty]
  rcases fetchNames_trace h with ht | ⟨err, ht⟩ <;> rw [ht] <;>
    exact ⟨rfl, rfl, rfl, rfl⟩

theorem openNameSelector_empty_warns_witness :
    (fetchNames (hostServing (.obj [("rows", .arr [])]))).result = .ok (.arr []) ∧
    ((openNameSelector (hostServing (.obj [("rows", .arr [])]))).result = .ok none ∧
    (openNameSelector (hostServing (.obj [("rows", .arr [])]))).trace.countP
      Effect.isDialog = 0 ∧
    (openNameSelector (hostServing (.obj [("rows", .arr [])]))).trace.countP
      Effect.isChat = 0 ∧
    (openNameSelector (hostServing (.obj [("rows", .arr [])]))).trace.countP
      Effect.isNotifyWarn = 1) :=
  ⟨rfl, openNameSelector_empty_warns _ rfl⟩

/-- C10: whenever the fetch fails, `openNameSelector` does not raise, opens no
dialog, creates no chat message, and the user receives exactly two
notifications: the error of `fetchNames`, then the warning of
`openNameSelector`. -/
theorem openNameSelector_fetch_failure (h : Host)
    (hf : fetchFails (h.fetch (apiUrl h)) = true) :
    (openNameSelector h).result = .ok none ∧
    (openNameSelector h).trace.filter Effect.isNotification =
      [.notifyError "Failed to fetch names from API.",
        .notifyWarn "No names found in the API."] ∧
    (openNameSelector h).trace.countP Effect.isDialog = 0 ∧
    (openNameSelector h).trace.countP Effect.isChat = 0 := by
  obtain ⟨err, he⟩ := fetchNames_of_fails h hf
  rw [openNameSelector_of_empty h (by rw [he]), he]
  exact ⟨rfl, rfl, rfl, rfl⟩

theorem openNameSelector_fetch_failure_witness :
    fetchFails ((hostWith (.rejected (.rejection "Failed to fetch"))).fetch
      (apiUrl (hostWith (.rejected (.rejection "Failed to fetch"))))) = true ∧
    ((openNameSelector (hostWith (.rejected (.rejection "Failed to fetch")))).result
        = .ok none ∧
    (openNameSelector (hostWith (.rejected (.rejection "Failed to fetch")))).trace.filter
        Effect.isNotification =
      [.notifyError "Failed to fetch names from API.",
        .notifyWarn "No names found in the API."] ∧
    (openNameSelector (hostWith (.rejected (.rejection "Failed to fetch")))).trace.countP
      Effect.isDialog = 0 ∧
    (openNameSelector (hostWith (.rejected (.rejection "Failed to fetch")))).trace.countP
      Effect.isChat = 0) :=
  ⟨by decide, openNameSelector_fetch_failure _ (by decide)⟩

/-- C5, as stated, fails: the label of the row, lowercased, contains the
lowercased search text "amp", yet after the handler has run the option of that
row is hidden, because the text of the option is the parsed label. -/
theorem search_misses_raw_label :
    (openNameSelector fishHost).result = .ok (some fishDialog) ∧
    optionMarkup fishRow = .ok "<option value=\"f1\">Fish &amp; Chips</option>" ∧
    includes (fishHost.toLowerCase "Fish &amp; Chips") (fishHost.toLowerCase "amp") = true ∧
    (typeSearch fishHost fishDialog "amp").options = [⟨"f1", "Fish & Chips", false⟩] :=
  ⟨rfl, rfl, by decide, by decide⟩

/-- C5, amended: when the dialog opens, its options are the elements the host
parses from the body built with one `<option value="id">label</option>` per
row; after the input handler has run for a search text, whatever the earlier
keystrokes and the visibility they left, the options are the same elements in
the same order and each one is shown if and only if its text as parsed by the
host, lowercased, contains the lowercased search text as a substring. -/
theorem search_filter_visibility (h : Host) (d0 : Dialog)
    (hopen : (openNameSelector h).result = .ok (some d0)) (earlier : List String)
    (text : String) :
    (∃ cells : List (String × String),
      List.Forall₂ (fun row cell => ∃ value attrs label id,
        getProp row "value" = .ok value ∧ getProp value "attributes" = .ok attrs ∧
        getProp attrs "label" = .ok label ∧ getProp row "id" = .ok id ∧
        toStr id = .ok cell.1 ∧ toStr label = .ok cell.2) d0.rows cells ∧
      d0.options.map (fun o => (o.value, o.text)) =
        h.parseOptions (dialogContent (String.join (cells.map fun cell =>
          "<option value=\"" ++ cell.1 ++ "\">" ++ cell.2 ++ "</option>")))) ∧
    (typeSearch h (earlier.foldl (typeSearch h) d0) text).options.map OptionEl.text
      = d0.options.map OptionEl.text ∧
    (typeSearch h (earlier.foldl (typeSearch h) d0) text).options.map OptionEl.value
      = d0.options.map OptionEl.value ∧
    (typeSearch h (earlier.foldl (typeSearch h) d0) text).options
      = (typeSearch h d0 text).options ∧
    ∀ o ∈ (typeSearch h (earlier.foldl (typeSearch h) d0) text).options,
      (o.shown = true ↔ (h.toLowerCase text).data <:+: (h.toLowerCase o.text).data) := by
  refine ⟨?_, ?_⟩
  · obtain ⟨markups, hmap, hopts⟩ := openNameSelector_opened h d0 hopen
    obtain ⟨cells, hcells, hmk⟩ := mapRows_cells d0.rows markups hmap
    refine ⟨cells, hcells, ?_⟩
    rw [hopts, ← hmk]
    simp [List.map_map, Function.comp_def]
  · rw [typeSearch_history, typeSearch_options]
    refine ⟨?_, ?_, rfl, ?_⟩
    · simp [List.map_map, Function.comp_def]
    · simp [List.map_map, Function.comp_def]
    · intro o ho
      obtain ⟨o0, _, rfl⟩ := List.mem_map.mp ho
      exact includes_iff _ _

theorem search_filter_visibility_witness :
    (openNameSelector fruitHost).result = .ok (some fruitDialog) ∧
    ((∃ cells : List (String × String),
      List.Forall₂ (fun row cell => ∃ value attrs label id,
        getProp row "value" = .ok value ∧ getProp value "attributes" = .ok attrs ∧
        getProp attrs "label" = .ok label ∧ getProp row "id" = .ok id ∧
        toStr id = .ok cell.1 ∧ toStr label = .ok cell.2) fruitDialog.rows cells ∧
      fruitDialog.options.map (fun o => (o.value, o.text)) =
        fruitHost.parseOptions (dialogContent (String.join (cells.map fun cell =>
          "<option value=\"" ++ cell.1 ++ "\">" ++ cell.2 ++ "</option>")))) ∧
    (typeSearch fruitHost (["b", "ba"].foldl (typeSearch fruitHost) fruitDialog) "an").options.map
        OptionEl.text
      = fruitDialog.options.map OptionEl.text ∧
    (typeSearch fruitHost (["b", "ba"].foldl (typeSearch fruitHost) fruitDialog) "an").options.map
        OptionEl.value
      = fruitDialog.options.map OptionEl.value ∧
    (typeSearch fruitHost (["b", "ba"].foldl (typeSearch fruitHost) fruitDialog) "an").options
      = (typeSearch fruitHost fruitDialog "an").options ∧
    ∀ o ∈ (typeSearch fruitHost (["b", "ba"].foldl (typeSearch fruitHost) fruitDialog)
        "an").options,
      (o.shown = true ↔
        (fruitHost.toLowerCase "an").data <:+: (fruitHost.toLowerCase o.text).data)) :=
  ⟨rfl, search_filter_visibility fruitHost fruitDialog rfl ["b", "ba"] "an"⟩

/-- The example of C5: with labels Apple and Banana, typing "an" leaves only
Banana shown. -/
theorem search_filter_example :
    (openNameSelector fruitHost).result = .ok (some fruitDialog) ∧
    (typeSearch fruitHost fruitDialog "an").options =
      [⟨"a1", "Apple", false⟩, ⟨"b2", "Banana", true⟩] :=
  ⟨rfl, by decide⟩

/-- C6: when the identifiers of the rows are pairwise distinct strings and the
value of the selector is the identifier of a row `r` of the list, the `show`
button does exactly what one call of `showImageToPlayers` on `r` does; the
`cancel` button does nothing. -/
theorem confirm_shows_selected (h : Host) (d : Dialog) (ids : List String) (r : JSVal)
    (sel : String)
    (hids : d.rows.map (fun row => getProp row "id")
      = ids.map (fun s => Except.ok (JSVal.str s)))
    (hnd : ids.Nodup) (hr : r ∈ d.rows) (hsel : getProp r "id" = .ok (.str sel))
    (hval : d.selected = some sel) :
    pressButton h d "show" = showImageToPlayers h r ∧
    pressButton h d "cancel" = ⟨[], .ok ()⟩ := by
  constructor
  · have hfind := findRow_of_distinct sel r hsel d.rows ids hids hnd hr
    simp only [pressButton, buttonCallback, if_true, showCallback, hval, hfind, liftE_ok_bind,
      truthy_of_id r sel hsel]
  · rfl

theorem confirm_shows_selected_witness :
    (chooseOption fruitDialog "b2").rows.map (fun row => getProp row "id")
      = ["a1", "b2"].map (fun s => Except.ok (JSVal.str s)) ∧
    ["a1", "b2"].Nodup ∧
    (chooseOption fruitDialog "b2").selected = some "b2" ∧
    pressButton fruitHost (chooseOption fruitDialog "b2") "show"
      = showImageToPlayers fruitHost bananaRow ∧
    pressButton fruitHost (chooseOption fruitDialog "b2") "cancel" = ⟨[], .ok ()⟩ :=
  ⟨rfl, by decide, rfl,
    confirm_shows_selected fruitHost (chooseOption fruitDialog "b2") ["a1", "b2"] bananaRow "b2"
      rfl (by decide) (List.Mem.tail _ (List.Mem.head _)) rfl rfl⟩

/-- C7: for every record (label and image are strings, the description is a
string or absent), `showImageToPlayers` creates exactly one chat message, and
its whisper list is exactly what the host returns for the role GM. -/
theorem showImageToPlayers_whispers_gm (h : Host) (row value attrs desc : JSVal)
    (label image : String)
    (hv : getProp row "value" = .ok value) (ha : getProp value "attributes" = .ok attrs)
    (hl : getProp attrs "label" = .ok (.str label))
    (hi : getProp attrs "image" = .ok (.str image))
    (hd : getProp attrs "description" = .ok desc)
    (hs : desc = .undefined ∨ isString desc = true) :
    (showImageToPlayers h row).result = .ok () ∧
    ∃ content, (showImageToPlayers h row).trace.filter Effect.isChat
      = [.chatCreate content (h.getWhisperRecipients "GM")] := by
  have ht : ∃ t, toStr (if truthy desc then desc else .str "") = .ok t := by
    rcases hs with hu | hstr
    · subst hu
      exact ⟨"", rfl⟩
    · cases desc with
      | str s => by_cases hts : truthy (.str s) = true <;> simp [hts, toStr]
      | undefined => simp [isString] at hstr
      | null => simp [isString] at hstr
      | bool b => simp [isString] at hstr
      | num n => simp [isString] at hstr
      | arr items => simp [isString] at hstr
      | obj fields => simp [isString] at hstr
  obtain ⟨t, ht⟩ := ht
  rw [showImageToPlayers_of_record h row value attrs desc label image t hv ha hl hi hd ht]
  exact ⟨rfl, _, rfl⟩

theorem showImageToPlayers_whispers_gm_witness :
    (showImageToPlayers fruitHost bananaRow).result = .ok () ∧
    ∃ content, (showImageToPlayers fruitHost bananaRow).trace.filter Effect.isChat
      = [.chatCreate content (fruitHost.getWhisperRecipients "GM")] :=
  showImageToPlayers_whispers_gm fruitHost bananaRow
    (.obj [("attributes", .obj [("label", .str "Banana"),
      ("image", .str "https://example.com/banana.png"),
      ("description", .str "A yellow fruit")])])
    (.obj [("label", .str "Banana"), ("image", .str "https://example.com/banana.png"),
      ("description", .str "A yellow fruit")])
    (.str "A yellow fruit") "Banana" "https://example.com/banana.png"
    rfl rfl rfl rfl rfl (Or.inr rfl)

/-- C8: for every record whose description is the empty string or absent,
`showImageToPlayers` does not throw and creates a chat message whose content
contains the title, the image element with the record image as source, and an
empty paragraph. -/
theorem showImageToPlayers_empty_description (h : Host) (row value attrs desc : JSVal)
    (label image : String)
    (hv : getProp row "value" = .ok value) (ha : getProp value "attributes" = .ok attrs)
    (hl : getProp attrs "label" = .ok (.str label))
    (hi : getProp attrs "image" = .ok (.str image))
    (hd : getProp attrs "description" = .ok desc)
    (he : desc = .undefined ∨ desc = .str "") :
    showImageToPlayers h row =
      ⟨[.chatCreate (chatContent label image "") (h.getWhisperRecipients "GM"),
        .notifyInfo (label ++ "\x27s image is now shown to players.")], .ok ()⟩ ∧
    ("<h2>" ++ label ++ "</h2>").data <:+: (chatContent label image "").data ∧
    ("<img src=\"" ++ image ++ "\"").data <:+: (chatContent label image "").data ∧
    ("<p></p>").data <:+: (chatContent label image "").data := by
  have ht : toStr (if truthy desc then desc else .str "") = .ok "" := by
    rcases he with hu | hu <;> subst hu <;> rfl
  refine ⟨showImageToPlayers_of_record h row value attrs desc label image "" hv ha hl hi hd ht,
    ?_, ?_, ?_⟩
  · apply substring_of_eq "\n        <div style=\"text-align: center;\">\n          " _
      ("\n          <img src=\"" ++ image
        ++ "\" style=\"max-width:100%; border:1px solid #ccc; margin-top:10px;\">\n          <p>"
        ++ "" ++ "</p>\n        </div>\n      ")
    have e1 : "\n        <div style=\"text-align: center;\">\n          <h2>"
        = "\n        <div style=\"text-align: center;\">\n          " ++ "<h2>" := by decide
    have e2 : "</h2>\n          <img src=\"" = "</h2>" ++ "\n          <img src=\"" := by
      decide
    unfold chatContent
    rw [e1, e2]
    simp only [String.append_assoc]
  · apply substring_of_eq
      ("\n        <div style=\"text-align: center;\">\n          <h2>" ++ label
        ++ "</h2>\n          ") _
      (" style=\"max-width:100%; border:1px solid #ccc; margin-top:10px;\">\n          <p>"
        ++ "" ++ "</p>\n        </div>\n      ")
    have e1 : "</h2>\n          <img src=\"" = "</h2>\n          " ++ "<img src=\"" := by
      decide
    have e2 : "\" style=\"max-width:100%; border:1px solid #ccc; margin-top:10px;\">\n          <p>"
        = "\"" ++ " style=\"max-width:100%; border:1px solid #ccc; margin-top:10px;\">\n          <p>"
        := by decide
    unfold chatContent
    rw [e1, e2]
    simp only [String.append_assoc]
  · apply substring_of_eq
      ("\n        <div style=\"text-align: center;\">\n          <h2>" ++ label
        ++ "</h2>\n          <img src=\"" ++ image
        ++ "\" style=\"max-width:100%; border:1px solid #ccc; margin-top:10px;\">\n          ")
      _ "\n        </div>\n      "
    have e1 : "\" style=\"max-width:100%; border:1px solid #ccc; margin-top:10px;\">\n          <p>"
        = "\" style=\"max-width:100%; border:1px solid #ccc; margin-top:10px;\">\n          "
          ++ "<p>" := by decide
    have e2 : "</p>\n        </div>\n      " = "</p>" ++ "\n        </div>\n      " := by
      decide
    have e3 : "<p></p>" = "<p>" ++ "" ++ "</p>" := by decide
    unfold chatContent
    rw [e1, e2, e3]
    simp only [String.append_assoc]

theorem showImageToPlayers_empty_description_witness :
    showImageToPlayers fruitHost appleRow =
      ⟨[.chatCreate (chatContent "Apple" "https://example.com/apple.png" "")
          (fruitHost.getWhisperRecipients "GM"),
        .notifyInfo ("Apple" ++ "\x27s image is now shown to players.")], .ok ()⟩ ∧
    ("<h2>" ++ "Apple" ++ "</h2>").data
      <:+: (chatContent "Apple" "https://example.com/apple.png" "").data ∧
    ("<img src=\"" ++ "https://example.com/apple.png" ++ "\"").data
      <:+: (chatContent "Apple" "https://example.com/apple.png" "").data ∧
    ("<p></p>").data <:+: (chatContent "Apple" "https://example.com/apple.png" "").data :=
  showImageToPlayers_empty_description fruitHost appleRow
    (.obj [("attributes", .obj [("label", .str "Apple"),
      ("image", .str "https://example.com/apple.png")])])
    (.obj [("label", .str "Apple"), ("image", .str "https://example.com/apple.png")])
    .undefined "Apple" "https://example.com/apple.png" rfl rfl rfl rfl rfl (Or.inl rfl)

/-- C9: the input handler of the search field changes only the visibility of
the options: the rows, the selected identifier, the search text and the value
and label of every option are unchanged.  Consequently a hidden option can be
confirmed: with Apple selected and "ban" typed, the Apple option is hidden and
the `show` button still displays the Apple record. -/
theorem search_keeps_selection :
    (∀ (h : Host) (d : Dialog),
      (onSearchInput h d).rows = d.rows ∧
      (onSearchInput h d).selected = d.selected ∧
      (onSearchInput h d).search = d.search ∧
      (onSearchInput h d).options.map OptionEl.value = d.options.map OptionEl.value ∧
      (onSearchInput h d).options.map OptionEl.text = d.options.map OptionEl.text) ∧
    (openNameSelector fruitHost).result = .ok (some fruitDialog) ∧
    (typeSearch fruitHost fruitDialog "ban").selected = some "a1" ∧
    (typeSearch fruitHost fruitDialog "ban").options =
      [⟨"a1", "Apple", false⟩, ⟨"b2", "Banana", true⟩] ∧
    pressButton fruitHost (typeSearch fruitHost fruitDialog "ban") "show"
      = showImageToPlayers fruitHost appleRow ∧
    (showImageToPlayers fruitHost appleRow).trace =
      [.chatCreate (chatContent "Apple" "https://example.com/apple.png" "") ["gamemaster"],
        .notifyInfo "Apple\x27s image is now shown to players."] := by
  refine ⟨?_, rfl, rfl, by decide, rfl, rfl⟩
  intro h d
  refine ⟨rfl, rfl, rfl, ?_, ?_⟩
  · simp [onSearchInput, List.map_map, Function.comp_def]
  · simp [onSearchInput, List.map_map, Function.comp_def]

end Kumu
